import Mathlib

/-!
Verification development for the Blendyn simulation-output ingestion core
(`baselib.py`, `beamlib.py`).  The Python sources are shallowly embedded:
lines of the solver's text files are Lean `String`s, csv rows are
`List String`, numeric samples are exact rationals (reals for the
quaternion interpolation), and the ambient Blender registries
(`mbs.nodes`, `mbs.elems`, `mbs.references`) are explicit lists threaded
through every operation.  Python exceptions that the source catches or
lets escape are modelled with `Option` / explicit outcome constructors.
-/

set_option maxRecDepth 4000

namespace Blendyn

/-! ## Python string primitives

The log parser and label resolver work on whitespace-delimited text.
These helpers model the exact Python string operations used by
`baselib.py`: `in` (substring test), `str.rstrip`, `str.strip`,
`str.find`, slicing, `int(...)` and `float(...)` of decimal literals. -/

/-- `tok rw i` models `rw[i]` on a csv row; out-of-range access is the
empty string (the Python `IndexError` paths are never exercised by the
claims, which constrain row lengths). -/
def tok (rw : List String) (i : ℕ) : String := rw.getD i ""

/-- Is `p` a leading segment of `s` (character lists)? -/
def isPreOf : List Char → List Char → Bool
  | [], _ => true
  | _ :: _, [] => false
  | a :: p, b :: s => a = b && isPreOf p s

/-- Does `s` contain `p` as a contiguous segment?  Models Python's
`p in s` for strings. -/
def containsSub (p : List Char) : List Char → Bool
  | [] => isPreOf p []
  | b :: s => isPreOf p (b :: s) || containsSub p s

/-- Python `needle in haystack` on strings. -/
def pyIn (needle haystack : String) : Bool :=
  containsSub needle.toList haystack.toList

/-- Python `s.rstrip()`: drop trailing whitespace. -/
def pyRstrip (s : String) : String :=
  String.mk ((s.toList.reverse.dropWhile Char.isWhitespace).reverse)

/-- Python `s.strip()`: drop leading and trailing whitespace. -/
def pyStrip (s : String) : String :=
  String.mk (((s.toList.dropWhile Char.isWhitespace).reverse.dropWhile
      Char.isWhitespace).reverse)

/-- Python `s.find(c) + 1`: one past the index of the first occurrence
of `c`, and `0` when `c` is absent (`find` returns `-1` there). -/
def pyFindPlus1 (s : String) (c : Char) : ℕ :=
  match s.toList.findIdx? (fun a => a = c) with
  | some i => i + 1
  | none => 0

/-- Python `s[a:b]` with `0 ≤ a ≤ b` (the only shape the embedded code
reaches once `int(...)` has succeeded). -/
def pySlice (s : String) (a b : ℕ) : String :=
  String.mk ((s.toList.drop a).take (b - a))

/-- Python `s[a:]`. -/
def pySliceFrom (s : String) (a : ℕ) : String :=
  String.mk (s.toList.drop a)

/-- Python `s[:-1]`: all characters but the last. -/
def dropLastChar (s : String) : String :=
  String.mk s.toList.dropLast

/-- The value of a single decimal digit, `none` otherwise. -/
def digitVal (c : Char) : Option ℕ :=
  if c.isDigit then some (c.toNat - '0'.toNat) else none

/-- Left-to-right accumulation of decimal digits. -/
def parseDigitsAux : List Char → ℕ → Option ℕ
  | [], acc => some acc
  | c :: cs, acc =>
      match digitVal c with
      | some d => parseDigitsAux cs (acc * 10 + d)
      | none => none

/-- Parse a non-empty all-digit character list. -/
def parseDigits (cs : List Char) : Option ℕ :=
  if cs.isEmpty then none else parseDigitsAux cs 0

/-- Python `int(s)`: optional surrounding whitespace, optional sign,
then decimal digits; anything else raises `ValueError`, modelled as
`none`. -/
def parseInt (s : String) : Option ℤ :=
  match (pyStrip s).toList with
  | '-' :: cs => (parseDigits cs).map (fun n => -(n : ℤ))
  | '+' :: cs => (parseDigits cs).map (fun n => (n : ℤ))
  | cs => (parseDigits cs).map (fun n => (n : ℤ))

/-- Python `float(s)` restricted to plain decimal literals
(`-12.5`, `3`, `+0.25`), the shape MBDyn writes in its output rows;
unparsable text is `none`. -/
def parseRat (s : String) : Option ℚ :=
  match (pyStrip s).toList with
  | '-' :: cs => (parseRatCore cs).map (fun q => -q)
  | '+' :: cs => parseRatCore cs
  | cs => parseRatCore cs
where
  parseRatCore (cs : List Char) : Option ℚ :=
    match cs.splitOn '.' with
    | [w] => (parseDigits w).map (fun n => (n : ℚ))
    | [w, f] =>
        match parseDigits w, parseDigits f with
        | some n, some m => some ((n : ℚ) + (m : ℚ) / (10 : ℚ) ^ f.length)
        | _, _ => none
    | _ => none

/-- `float(rw[i])` with a default for the never-exercised error path. -/
def ratAt (rw : List String) (i : ℕ) : ℚ := (parseRat (tok rw i)).getD 0

/-! ## Data model

`Node`, `Elem` and `Ref` mirror the Blender property groups that
`baselib.py` reads and writes (`mbs.nodes`, `mbs.elems`,
`mbs.references`): only the fields the embedded operations touch are
kept. -/

/-- The rotation parametrizations accepted by the importer: the
absolute rotation vector `phi`, the three fixed Euler sequences, and
the full rotation matrix. -/
inductive RotParam
  | phi
  | euler123
  | euler321
  | euler313i12   -- the sequence written `euler312` in the sources
  | mat
  deriving DecidableEq

/-- A structural-node registry record. -/
structure Node where
  int_label : ℤ
  string_label : String
  param : RotParam
  output : Bool
  blender_object : String
  is_imported : Bool
  deriving DecidableEq

/-- A rational 3-vector (`mathutils.Vector` payloads). -/
structure V3 where
  x : ℚ
  y : ℚ
  z : ℚ
  deriving DecidableEq

/-- An element registry record. -/
structure Elem where
  mbclass : String
  etype : String
  int_label : ℤ
  string_label : String
  nodes : List ℤ
  offsets : List V3
  name : String
  blender_object : String
  is_imported : Bool
  deriving DecidableEq

/-- A reference-frame registry record. -/
structure Ref where
  int_label : ℤ
  string_label : String
  deriving DecidableEq

/-! ## Label Resolver (`assign_labels`, baselib.py lines 526-653)

The second pass over the `.log` file: scan each line for one of the
label-assignment grammars and copy the symbol name onto the entity with
the matching integer label.  The file is `Option (List String)`
(`none` models the `IOError` on opening).  Python's `int(...)` raising
`ValueError` on a matched line is *not* caught by the source, so the
outcome type has a dedicated `valueError` constructor. -/

/-- Status set returned by `assign_labels`. -/
inductive LabelStatus
  | labelsUpdated
  | nothingDone
  | fileNotFound
  deriving DecidableEq

/-- Outcome of the label pass: a returned status, or the uncaught
`ValueError` escaping from `int(line_str[eq_idx:].strip())`. -/
inductive LabelOutcome
  | ok (s : LabelStatus)
  | valueError
  deriving DecidableEq

/-- Result record: outcome plus the three registries after the pass
(for `valueError` these are the registries at the moment the exception
escaped). -/
structure LabelResult where
  out : LabelOutcome
  nd : List Node
  ed : List Elem
  rd : List Ref
  deriving DecidableEq

/-- `set_strings_node` (baselib.py lines 553-558). -/
def setStringsNode : List String :=
  ["  const integer Node_", "  integer Node_",
   "  const integer node_", "  integer node_",
   "  const integer NODE_", "  integer NODE_"]

/-- `set_strings_joint` (baselib.py lines 560-565).  The source is
missing a comma after `"  integer Joint_"`, so Python's implicit
string-literal concatenation fuses it with the next entry: the list
has five members and the plain `"  integer Joint_"` pattern is absent. -/
def setStringsJoint : List String :=
  ["  const integer Joint_",
   "  integer Joint_  const integer joint_",
   "  integer joint_",
   "  const integer JOINT_", "  integer JOINT_"]

/-- `set_strings_beam` (baselib.py lines 567-572). -/
def setStringsBeam : List String :=
  ["  const integer Beam_", "  integer Beam_",
   "  const integer beam_", "  integer beam_",
   "  const integer BEAM_", "  integer BEAM_"]

/-- `set_strings_refs` (baselib.py lines 574-585). -/
def setStringsRefs : List String :=
  ["  const integer Ref_", "  integer Ref_",
   "  const integer ref_", "  integer ref_",
   "  const integer REF_", "  integer REF_",
   "  const integer Reference_", "  integer Reference_",
   "  const integer reference_", "  integer reference_",
   "  const integer REFERENCE_", "  integer REFERENCE_"]

/-- `set_strings_any` (baselib.py lines 550-551, free-label mode). -/
def setStringsAny : List String :=
  ["  const integer", "  integer"]

/-- First pattern of the family occurring in `line` (the inner
`for set_string in ...: if set_string in line: ... break` loops). -/
def findMatch (family : List String) (line : String) : Option String :=
  family.find? (fun s => pyIn s line)

/-- `int(line_str[eq_idx:].strip())` with `eq_idx = find('=') + 1`:
the integer label on the right of the assignment. -/
def lineLabelInt (line : String) : Option ℤ :=
  parseInt (pyStrip (pySliceFrom (pyRstrip line) (pyFindPlus1 (pyRstrip line) '=')))

/-- The candidate string label extracted by `assign_label`
(baselib.py lines 591-594): in free mode everything after the matched
pattern up to the `=`; in standard mode the slice instead starts at
`len(set_string) - len(entity_type) - 1`, keeping the kind prefix
(`Node_`, `Joint_`, ...) in the label. -/
def lineLabelStr (freeLabels : Bool) (line entityType setString : String) : String :=
  let ls := pyRstrip line
  let eqIdx := pyFindPlus1 ls '='
  if freeLabels then
    pyStrip (pySlice ls setString.length (eqIdx - 1))
  else
    pyStrip (pySlice ls (setString.length - entityType.length - 1) (eqIdx - 1))

/-- The `for item in the_dict: ...` loop of `assign_label`
(baselib.py lines 596-605): find the first record with the given
integer label; if its string label differs, rewrite it and report a
change; `break` either way. -/
def assignInList (getInt : α → ℤ) (getStr : α → String) (setStr : α → String → α)
    (labelInt : ℤ) (labelStr : String) : List α → Bool × List α
  | [] => (false, [])
  | a :: t =>
      if getInt a = labelInt then
        if getStr a ≠ labelStr then (true, setStr a labelStr :: t)
        else (false, a :: t)
      else
        let (b, t') := assignInList getInt getStr setStr labelInt labelStr t
        (b, a :: t')

/-- `assign_label` (baselib.py lines 587-605) specialised by
entity accessors; `none` is the uncaught `ValueError` from `int(...)`. -/
def assign_label (getInt : α → ℤ) (getStr : α → String) (setStr : α → String → α)
    (freeLabels : Bool) (line entityType setString : String) (d : List α) :
    Option (Bool × List α) :=
  match lineLabelInt line with
  | none => none
  | some labelInt =>
      some (assignInList getInt getStr setStr labelInt
        (lineLabelStr freeLabels line entityType setString) d)

/-- `assign_label` on the node registry. -/
def assignLabelNd (freeLabels : Bool) (line entityType setString : String)
    (nd : List Node) : Option (Bool × List Node) :=
  assign_label Node.int_label Node.string_label
    (fun n s => { n with string_label := s }) freeLabels line entityType setString nd

/-- `assign_label` on the element registry. -/
def assignLabelEd (freeLabels : Bool) (line entityType setString : String)
    (ed : List Elem) : Option (Bool × List Elem) :=
  assign_label Elem.int_label Elem.string_label
    (fun e s => { e with string_label := s }) freeLabels line entityType setString ed

/-- `assign_label` on the reference registry. -/
def assignLabelRd (freeLabels : Bool) (line entityType setString : String)
    (rd : List Ref) : Option (Bool × List Ref) :=
  assign_label Ref.int_label Ref.string_label
    (fun r s => { r with string_label := s }) freeLabels line entityType setString rd

/-- Processing of one log line (the body of the `for line in lf` loops,
baselib.py lines 610-644): returns `none` on the uncaught `ValueError`,
otherwise whether a label changed and the updated registries. -/
def lineStep (freeLabels : Bool) (line : String) (nd : List Node) (ed : List Elem)
    (rd : List Ref) : Option (Bool × List Node × List Elem × List Ref) :=
  if freeLabels then
    match findMatch setStringsAny line with
    | none => some (false, nd, ed, rd)
    | some s =>
        match assignLabelNd true line "" s nd with
        | none => none
        | some (c1, nd') =>
            match assignLabelEd true line "" s ed with
            | none => none
            | some (c2, ed') =>
                match assignLabelRd true line "" s rd with
                | none => none
                | some (c3, rd') => some (c1 || c2 || c3, nd', ed', rd')
  else
    match findMatch setStringsNode line with
    | some s =>
        match assignLabelNd false line "node" s nd with
        | none => none
        | some (c, nd') => some (c, nd', ed, rd)
    | none =>
        match findMatch setStringsJoint line with
        | some s =>
            match assignLabelEd false line "joint" s ed with
            | none => none
            | some (c, ed') => some (c, nd, ed', rd)
        | none =>
            match findMatch setStringsBeam line with
            | some s =>
                match assignLabelEd false line "beam" s ed with
                | none => none
                | some (c, ed') => some (c, nd, ed', rd)
            | none =>
                match findMatch setStringsRefs line with
                | some s =>
                    match assignLabelRd false line "ref" s rd with
                    | none => none
                    | some (c, rd') => some (c, nd, ed, rd')
                | none => some (false, nd, ed, rd)

/-- The line loop of `assign_labels` with the `labels_changed`
accumulator. -/
def labelsLoop (freeLabels : Bool) : List String → Bool → List Node → List Elem →
    List Ref → LabelResult
  | [], changed, nd, ed, rd =>
      ⟨.ok (if changed then .labelsUpdated else .nothingDone), nd, ed, rd⟩
  | line :: rest, changed, nd, ed, rd =>
      match lineStep freeLabels line nd ed rd with
      | none => ⟨.valueError, nd, ed, rd⟩
      | some (c, nd', ed', rd') => labelsLoop freeLabels rest (changed || c) nd' ed' rd'

/-- `assign_labels` (baselib.py lines 526-653): `logLines = none`
models the `IOError` branch returning `FILE_NOT_FOUND`. -/
def assign_labels (freeLabels : Bool) (logLines : Option (List String))
    (nd : List Node) (ed : List Elem) (rd : List Ref) : LabelResult :=
  match logLines with
  | none => ⟨.ok .fileNotFound, nd, ed, rd⟩
  | some lines => labelsLoop freeLabels lines false nd ed rd

/-- A line is well-formed for the label pass when, if it is matched by
one of the active pattern families, it carries a parseable integer
after its `=` sign (otherwise `int(...)` raises). -/
def lineOK (freeLabels : Bool) (line : String) : Bool :=
  let matched :=
    if freeLabels then (findMatch setStringsAny line).isSome
    else (findMatch setStringsNode line).isSome
      || (findMatch setStringsJoint line).isSome
      || (findMatch setStringsBeam line).isSome
      || (findMatch setStringsRefs line).isSome
  !matched || (lineLabelInt line).isSome

/-- Every line of the log is well-formed for the label pass. -/
def linesOK (freeLabels : Bool) (lines : List String) : Bool :=
  lines.all (lineOK freeLabels)

/-! ## Log Parser (`parse_log_file`, baselib.py lines 256-500)

The declaration scan reads the `.log` file as whitespace-delimited csv
rows.  For each row the inner loop (lines 362-366) walks the first
tokens accumulating `entry` until a token ends in `:` or the index
reaches `min(3, len(rw) - 1)`; the outer `while` terminates when the
accumulated `entry` minus its last character equals `"Symbol table"`,
on `StopIteration` (end of file) or on the `TypeError` raised when
`parse_node` reports an unsupported rotation parametrization. -/

/-- A csv row of the log file. -/
abbrev Row := List String

/-- Does the token end in a colon (`rw[ii][-1] == ':'`)?  The Python
code would raise `IndexError` on an empty token; tokens produced by the
claims are non-empty, and the model answers `false` there. -/
def endsColon (s : String) : Bool := s.toList.getLast? = some ':'

/-- The inner scanning loop of lines 364-366, fuelled by the remaining
distance to the exit bound `min(3, len(rw) - 1)`: returns the exit
index `ii` and the accumulated `entry`. -/
def scanAux (rw : Row) : ℕ → ℕ → String → ℕ × String
  | 0, ii, entry => (ii, entry)
  | k + 1, ii, entry =>
      if endsColon (tok rw ii) then (ii, entry)
      else scanAux rw k (ii + 1) (entry ++ " " ++ tok rw (ii + 1))

/-- Exit state of the scan of one row: `entry = rw[0]`, `ii = 0`,
bound `min(3, len(rw) - 1)`. -/
def scanRow (rw : Row) : ℕ × String :=
  let m := min 3 (rw.length - 1)
  scanAux rw m 0 (tok rw 0)

/-- The fate of a row in the declaration loop. -/
inductive RowClass
  | skipRow
  | nodeDecl
  | elemDecl (tag : String)
  deriving DecidableEq

/-- Classification of a row (lines 368-375): `ii == min(3, len(rw)-1)`
means "no element definition" and the row is skipped; the entry
`"structural node:"` goes to the node sub-parser; any other entry goes
to the generic element sub-parser stripped of its trailing colon.  The
accumulated entry is also returned, because the outer `while` condition
tests it. -/
def classifyRow (rw : Row) : RowClass × String :=
  let m := min 3 (rw.length - 1)
  let (ii, entry) := scanAux rw m 0 (tok rw 0)
  if ii = m then (.skipRow, entry)
  else if entry = "structural node:" then (.nodeDecl, entry)
  else (.elemDecl (dropLastChar entry), entry)

/-- Modelled from the spec: the node sub-parser `parse_node` lives in
`nodelib.py`, which is not among the sources here; baselib.py only
shows its call site and documents (lines 396-398) that it exits with
`{}` — triggering the caught `TypeError` — on an unsupported rotation
parametrization.  Following the spec's node model: the row carries the
integer label (token 2) and a rotation-parametrization tag (token 3,
a modelling choice of column); a supported tag is one of `phi`, the
three fixed Euler sequences, or `mat`.  An existing record with the
same integer label is updated in place (parametrization refreshed,
imported-this-pass flag set) and the sub-parser reports `True`; a new
label creates a fresh record and reports `False`; an unsupported tag
yields `none` (the `{}` return). -/
def parseRotTag (s : String) : Option RotParam :=
  if s = "phi" then some .phi
  else if s = "euler123" then some .euler123
  else if s = "euler321" then some .euler321
  else if s = "euler312" then some .euler313i12
  else if s = "mat" then some .mat
  else none

/-- First-match in-place update: `true` when a record matched. -/
def updateFirst (p : α → Bool) (f : α → α) : List α → Bool × List α
  | [] => (false, [])
  | a :: t =>
      if p a then (true, f a :: t)
      else
        let (b, t') := updateFirst p f t
        (b, a :: t')

/-- Modelled from the spec (see `parseRotTag`): the `parse_node`
sub-parser. -/
def parse_node (rw : Row) (nd : List Node) : Option (Bool × List Node) :=
  match parseRotTag (tok rw 3) with
  | none => none
  | some p =>
      let lbl := (parseInt (tok rw 2)).getD 0
      let (found, nd') := updateFirst (fun n => n.int_label = lbl)
        (fun n => { n with param := p, is_imported := true }) nd
      if found then some (true, nd')
      else some (false, nd ++ [⟨lbl, "", p, false, "none", true⟩])

/-- Modelled from the spec: the generic element sub-parser
`parse_elements` lives in `elementlib.py`, absent from the sources; it
dispatches on the kind tag, updates an existing element with the same
kind and integer label in place (reporting `True`) and otherwise
creates a fresh record (reporting `False`).  The integer label is
token 1, the column used by the beam parsers of `beamlib.py`; an
unparseable label leaves the registry unchanged (never exercised by
the claims). -/
def parse_elements (tag : String) (rw : Row) (ed : List Elem) : Bool × List Elem :=
  match parseInt (tok rw 1) with
  | none => (true, ed)
  | some lbl =>
      let (found, ed') := updateFirst (fun e => e.etype = tag && e.int_label = lbl)
        (fun e => { e with is_imported := true }) ed
      if found then (true, ed')
      else (false, ed ++ [⟨"elem", tag, lbl, "", [], [], tag ++ "_", "none", true⟩])

/-- Mutable state of the declaration loop: the two consistency
accumulators (`b_nodes_consistent`, `b_elems_consistent`, ANDed by the
source's boolean multiplication) and the registries. -/
structure LogState where
  bNodes : Bool
  bElems : Bool
  nd : List Node
  ed : List Elem
  deriving DecidableEq

/-- How the declaration loop ended. -/
inductive LoopExit
  | terminator   -- the `while` condition became false
  | eof          -- `StopIteration`
  | rotErr       -- `TypeError` from `parse_node` returning `{}`
  deriving DecidableEq

/-- Dispatch of one classified row; `none` is the `TypeError` abort. -/
def applyClass (c : RowClass) (rw : Row) (s : LogState) : Option LogState :=
  match c with
  | .skipRow => some s
  | .nodeDecl =>
      match parse_node rw s.nd with
      | none => none
      | some (b, nd') => some { s with bNodes := s.bNodes && b, nd := nd' }
  | .elemDecl tag =>
      let (b, ed') := parse_elements tag rw s.ed
      some { s with bElems := s.bElems && b, ed := ed' }

/-- The declaration loop (baselib.py lines 356-375): rows are consumed
until the terminator condition `entry[:-1] == "Symbol table"` holds
after a row, the row list ends, or a `TypeError` aborts. -/
def runRows : List Row → LogState → LogState × LoopExit
  | [], s => (s, .eof)
  | rw :: rest, s =>
      let ce := classifyRow rw
      match applyClass ce.1 rw s with
      | none => (s, .rotErr)
      | some s' =>
          if dropLastChar ce.2 = "Symbol table" then (s', .terminator)
          else runRows rest s'

/-- Import status values (`ret_val` contents). -/
inductive Status
  | initial             -- the `{''}` placeholder (line 288)
  | finished
  | modelInconsistent
  | nodesInconsistent
  | elemsInconsistent
  | logNotFound
  | rotationError
  | nodesNotFound
  | outNotFound
  deriving DecidableEq

/-- The four-way consistency classification of baselib.py lines
378-387, reached only when the loop terminated at the symbol-table
marker. -/
def classifyImport (isInitNd isInitEd bN bE : Bool) : Status :=
  if (isInitNd && isInitEd) || (bN && bE) then .finished
  else if (!bN && !isInitNd) && (!bE && !isInitEd) then .modelInconsistent
  else if (!bN && !isInitNd) && bE then .nodesInconsistent
  else if bN && (!bE && !isInitEd) then .elemsInconsistent
  else .finished

/-- Result of the embedded `parse_log_file`.  `statusAfterLog` is the
value held by `ret_val` right after the `.log` `try`/`except` block
(line 401), before the node-count block overwrites it; `status` is the
value actually returned at line 497. -/
structure ParseResult where
  status : Status
  statusAfterLog : Status
  objNames : List String
  nd : List Node
  ed : List Elem
  numTimesteps : Option ℕ
  deriving DecidableEq

/-- The `.log` phase: flags cleared (lines 269-273, before the file is
even opened), then the declaration loop; the resulting `ret_val`
follows lines 378-400: classification on normal termination, unchanged
placeholder on `StopIteration`, `LOG_NOT_FOUND` on `IOError`,
`ROTATION_ERROR` on `TypeError`. -/
def logPhase (logRows : Option (List Row)) (nd0 : List Node) (ed0 : List Elem) :
    LogState × Status :=
  let isInitNd := nd0.isEmpty
  let isInitEd := ed0.isEmpty
  let nd1 := nd0.map (fun n => { n with is_imported := false })
  let ed1 := ed0.map (fun e => { e with is_imported := false })
  let s0 : LogState := ⟨true, true, nd1, ed1⟩
  match logRows with
  | none => (s0, .logNotFound)
  | some rows =>
      let (s, ex) := runRows rows s0
      match ex with
      | .terminator => (s, classifyImport isInitNd isInitEd s.bNodes s.bElems)
      | .eof => (s, .initial)
      | .rotErr => (s, .rotationError)

/-- The tail of `parse_log_file` (baselib.py lines 403-469, text
backend): stale-entity collection, the node-count block that rewrites
`ret_val`, and the `.out` probe (`outOk = false` models
`FileNotFoundError` there).  Omitted pieces that no claim touches: the
`no_output` pass (it only sets `output` flags from the `.mov` file and
a node count that line 431 immediately overwrites), the min/max label
bookkeeping, the `.rfm` reference-frame pass and the end-time update. -/
def finishImport (s : LogState) (afterLog : Status) (outOk : Bool) (numRows : ℕ) :
    ParseResult :=
  let delNodes := s.nd.filter (fun n => n.is_imported = false)
  let delElems := s.ed.filter (fun e => e.is_imported = false)
  let objNames := (delNodes.map Node.blender_object
      ++ delElems.map Elem.blender_object).filter (fun o => o ≠ "")
  let nn := s.nd.length
  if nn ≠ 0 then
    { status := if outOk then .finished else .outNotFound,
      statusAfterLog := afterLog, objNames := objNames,
      nd := s.nd, ed := s.ed, numTimesteps := some (numRows / nn) }
  else
    { status := if outOk then .nodesNotFound else .outNotFound,
      statusAfterLog := afterLog, objNames := objNames,
      nd := s.nd, ed := s.ed, numTimesteps := none }

/-- `parse_log_file` (baselib.py lines 256-500), text (non-NetCDF)
backend. -/
def parse_log_file (logRows : Option (List Row)) (outOk : Bool)
    (nd0 : List Node) (ed0 : List Elem) (numRows : ℕ) : ParseResult :=
  let (s, afterLog) := logPhase logRows nd0 ed0
  finishImport s afterLog outOk numRows

/-! ## Motion interpolation, text and NetCDF backends

`set_motion_paths_mov` (baselib.py line 932) blends the two bracketing
`.mov` rows with `answer = frac*first + (1 - frac)*second`, where
`frac = np.ceil(frame) - frame`; the NetCDF helpers (lines 1175-1259)
index the time series at `int(tdx)` and `int(np.ceil(tdx))` and call
`mathutils`' `Vector.lerp` / `Quaternion.slerp` with factor
`1 - frac`.  Samples are exact rationals (reals for quaternions): the
claims are about the arithmetic of the blend, for which the float
rounding of the source is immaterial. -/

/-- Python `int(t)` on a rational: truncation toward zero. -/
def pyIntQ (t : ℚ) : ℤ := if 0 ≤ t then ⌊t⌋ else -⌊-t⌋

/-- Componentwise vector sum. -/
def v3add (a b : V3) : V3 := ⟨a.x + b.x, a.y + b.y, a.z + b.z⟩

/-- Componentwise vector difference. -/
def v3sub (a b : V3) : V3 := ⟨a.x - b.x, a.y - b.y, a.z - b.z⟩

/-- Scalar multiple. -/
def v3smul (c : ℚ) (a : V3) : V3 := ⟨c * a.x, c * a.y, c * a.z⟩

/-- The blend of baselib.py line 932 (identical at lines 949, 1102,
1384): `frac*first + (1 - frac)*second`, componentwise over the numpy
row. -/
def movInterp (frac : ℚ) (first second : V3) : V3 :=
  v3add (v3smul frac first) (v3smul (1 - frac) second)

/-- `mathutils.Vector.lerp` (external library call at baselib.py line
1184): `a.lerp(b, fac) = a + fac*(b - a)`. -/
def blenderLerp (a b : V3) (fac : ℚ) : V3 :=
  v3add a (v3smul fac (v3sub b a))

/-- The bracketing weight `frac = np.ceil(tdx) - tdx`. -/
def fracOfQ (tdx : ℚ) : ℚ := (⌈tdx⌉ : ℚ) - tdx

/-- `netcdf_helper` (baselib.py lines 1175-1184): fetch the samples at
`int(tdx)` and `int(np.ceil(tdx))` and blend with
`first.lerp(second, 1 - frac)`.  The time series is a total function
on ℤ; `tdx = scene.frame_current * load_frequency`. -/
def netcdf_helper (samples : ℤ → V3) (tdx : ℚ) : V3 :=
  blenderLerp (samples (pyIntQ tdx)) (samples ⌈tdx⌉) (1 - fracOfQ tdx)

/-! ## Quaternion slerp (`netcdf_helper_quat`, baselib.py lines 1251-1259)

For `MATRIX`-parametrized nodes the helper converts the two bracketing
rotation matrices (transposed) to quaternions and slerps with factor
`1 - frac`.  `Matrix.to_quaternion` and `Quaternion.slerp` are external
`mathutils` calls, modelled from that library's documented algorithms:
slerp flips the second quaternion's sign when the dot product is
negative (shorter arc), then blends with the sine formula, falling back
to a linear blend when the corrected cosine is within `1e-4` of 1;
matrix-to-quaternion is Blender's branch-per-largest-component
conversion (its exact-equality degenerate-trace fixups, pure float
artifacts, are omitted). -/

/-- A quaternion `w + xi + yj + zk` over ℝ. -/
structure Quat where
  w : ℝ
  x : ℝ
  y : ℝ
  z : ℝ

/-- Quaternion 4-dimensional dot product. -/
noncomputable def qdot (a b : Quat) : ℝ :=
  a.w * b.w + a.x * b.x + a.y * b.y + a.z * b.z

/-- Componentwise sum. -/
noncomputable def qadd (a b : Quat) : Quat :=
  ⟨a.w + b.w, a.x + b.x, a.y + b.y, a.z + b.z⟩

/-- Scalar multiple. -/
noncomputable def qsmul (c : ℝ) (a : Quat) : Quat :=
  ⟨c * a.w, c * a.x, c * a.y, c * a.z⟩

/-- Negation. -/
noncomputable def qneg (a : Quat) : Quat := ⟨-a.w, -a.x, -a.y, -a.z⟩

/-- `mathutils.Quaternion.slerp` (Blender's `interp_qt_qtqt`). -/
noncomputable def slerp (a b : Quat) (t : ℝ) : Quat :=
  let d := qdot a b
  let b2 := if d < 0 then qneg b else b
  let cosom := if d < 0 then -d else d
  if 1 - cosom > 1 / 10000 then
    let om := Real.arccos cosom
    let sinom := Real.sin om
    qadd (qsmul (Real.sin ((1 - t) * om) / sinom) a)
      (qsmul (Real.sin (t * om) / sinom) b2)
  else
    qadd (qsmul (1 - t) a) (qsmul t b2)

/-- A 3×3 real matrix in mathutils' row layout (`m01` = row 0,
column 1). -/
structure Mat3 where
  m00 : ℝ
  m01 : ℝ
  m02 : ℝ
  m10 : ℝ
  m11 : ℝ
  m12 : ℝ
  m20 : ℝ
  m21 : ℝ
  m22 : ℝ

/-- `Matrix.transposed()`. -/
def Mat3.transposed (m : Mat3) : Mat3 :=
  ⟨m.m00, m.m10, m.m20, m.m01, m.m11, m.m21, m.m02, m.m12, m.m22⟩

/-- `mathutils.Matrix.to_quaternion` (Blender's
`mat3_normalized_to_quat_fast`, external): pick the largest quaternion
component from the diagonal, build the rest from off-diagonal sums and
differences. -/
noncomputable def matToQuat (m : Mat3) : Quat :=
  if m.m22 < 0 then
    if m.m00 > m.m11 then
      let tr := 1 + m.m00 - m.m11 - m.m22
      let s0 := 2 * Real.sqrt tr
      let s := if m.m12 < m.m21 then -s0 else s0
      ⟨(m.m12 - m.m21) / s, 0.25 * s, (m.m01 + m.m10) / s, (m.m20 + m.m02) / s⟩
    else
      let tr := 1 - m.m00 + m.m11 - m.m22
      let s0 := 2 * Real.sqrt tr
      let s := if m.m20 < m.m02 then -s0 else s0
      ⟨(m.m20 - m.m02) / s, (m.m01 + m.m10) / s, 0.25 * s, (m.m12 + m.m21) / s⟩
  else
    if m.m00 < -m.m11 then
      let tr := 1 - m.m00 - m.m11 + m.m22
      let s0 := 2 * Real.sqrt tr
      let s := if m.m01 < m.m10 then -s0 else s0
      ⟨(m.m01 - m.m10) / s, (m.m20 + m.m02) / s, (m.m12 + m.m21) / s, 0.25 * s⟩
    else
      let tr := 1 + m.m00 + m.m11 + m.m22
      let s := 2 * Real.sqrt tr
      ⟨0.25 * s, (m.m12 - m.m21) / s, (m.m20 - m.m02) / s, (m.m01 - m.m10) / s⟩

/-- Python `int(t)` on a real: truncation toward zero. -/
noncomputable def pyIntR (t : ℝ) : ℤ := if 0 ≤ t then ⌊t⌋ else -⌊-t⌋

/-- `netcdf_helper_quat` (baselib.py lines 1251-1259): transpose the
two bracketing rotation matrices, convert to quaternions, and slerp
with factor `1 - frac`, `frac = np.ceil(tdx) - tdx`. -/
noncomputable def netcdf_helper_quat (samples : ℤ → Mat3) (tdx : ℝ) : Quat :=
  let frac := (⌈tdx⌉ : ℝ) - tdx
  slerp (matToQuat (samples (pyIntR tdx)).transposed)
    (matToQuat (samples ⌈tdx⌉).transposed) (1 - frac)

/-! ## `parse_beam3` (beamlib.py lines 94-155) -/

/-- `int(rw[i])` with a default on the never-exercised error path. -/
def intAt (rw : Row) (i : ℕ) : ℤ := (parseInt (tok rw i)).getD 0

/-- `Vector((float(rw[i]), float(rw[i+1]), float(rw[i+2])))`. -/
def beamV3 (rw : Row) (i : ℕ) : V3 := ⟨ratAt rw i, ratAt rw (i + 1), ratAt rw (i + 2)⟩

/-- The update path of `parse_beam3` (beamlib.py lines 97-119): nodes
from columns 2, 6, 10; offsets from columns 3-5 and 7-9 — and then
line 111 writes the columns 11-13 vector over `offsets[1]` again, so
`offsets[2]` is never touched.  `is_imported` is set `False` (line 103)
and back to `True` (line 117); `mbclass` is refreshed. -/
def beam3Update (rw : Row) (el : Elem) : Elem :=
  { el with
    nodes := ((el.nodes.set 0 (intAt rw 2)).set 1 (intAt rw 6)).set 2 (intAt rw 10),
    offsets := ((el.offsets.set 0 (beamV3 rw 3)).set 1 (beamV3 rw 7)).set 1
      (beamV3 rw 11),
    mbclass := "elem.beam",
    is_imported := true }

/-- The creation path of `parse_beam3` (beamlib.py lines 120-154):
three nodes and three offsets appended in order, `offsets[2]` getting
the columns 11-13 vector. -/
def beam3New (rw : Row) : Elem :=
  { mbclass := "elem.beam", etype := "beam3", int_label := intAt rw 1,
    string_label := "",
    nodes := [intAt rw 2, intAt rw 6, intAt rw 10],
    offsets := [beamV3 rw 3, beamV3 rw 7, beamV3 rw 11],
    name := "beam3_" ++ toString (intAt rw 1),
    blender_object := "none", is_imported := true }

/-- `parse_beam3(rw, ed)`: look up `ed['beam3_' + rw[1]]`; found →
update in place and return `True`; `KeyError` → append a fresh record
and return `False`. -/
def parse_beam3 (rw : Row) (ed : List Elem) : Bool × List Elem :=
  match ed.findIdx? (fun el => el.name = "beam3_" ++ tok rw 1) with
  | some i => (true, ed.set i (beam3Update rw (ed.getD i (beam3New rw))))
  | none => (false, ed ++ [beam3New rw])

/-! ## Spec-side formulations and concrete instances

`claimC7classify` restates the (amended) declaration-detection rule in
the spec's own vocabulary — first colon-terminated token by index, tag
as the join of the tokens up to it — to be compared with the loop-based
`classifyRow` from the source.  The remaining definitions are the
concrete registries, rows and sample streams that instantiate the
claims. -/

/-- Join tokens with single spaces, as the `entry` accumulator does. -/
def joinSpace : List String → String
  | [] => ""
  | h :: t => t.foldl (fun acc x => acc ++ " " ++ x) h

/-- Index of the first colon-terminated token strictly below
`min 3 (len - 1)`. -/
def specFirstColon (rw : Row) : Option ℕ :=
  (List.range (min 3 (rw.length - 1))).find? (fun i => endsColon (tok rw i))

/-- Amended claim C7, stated declaratively: a row is an entity
declaration exactly when a token strictly before index
`min 3 (len - 1)` ends in `:`; the tag is the join of the tokens up to
and including the first such token; tag `"structural node:"` goes to
the node sub-parser, any other tag goes colon-stripped to the element
sub-parser. -/
def claimC7classify (rw : Row) : RowClass :=
  match specFirstColon rw with
  | none => .skipRow
  | some i =>
      let tag := joinSpace (rw.take (i + 1))
      if tag = "structural node:" then .nodeDecl
      else .elemDecl (dropLastChar tag)

/-- Identity-relevant projection of a node record: everything except
the string label. -/
def ndShape (l : List Node) : List (ℤ × RotParam × Bool × String × Bool) :=
  l.map (fun n => (n.int_label, n.param, n.output, n.blender_object, n.is_imported))

/-- Identity-relevant projection of an element record: everything
except the string label. -/
def edShape (l : List Elem) :
    List (String × String × ℤ × List ℤ × List V3 × String × String × Bool) :=
  l.map (fun e => (e.mbclass, e.etype, e.int_label, e.nodes, e.offsets,
    e.name, e.blender_object, e.is_imported))

/-- Identity-relevant projection of a reference record. -/
def rdShape (l : List Ref) : List ℤ := l.map Ref.int_label

/-- A structural-node declaration row (label and parametrization tag
in the modelled columns). -/
def nodeRow (lbl par : String) : Row := ["structural", "node:", lbl, par]

/-- The `"Symbol table:"` marker row as the csv reader sees it. -/
def symRow : Row := ["Symbol", "table:"]

/-- C1 prior registry: structural nodes 1, 2, 3 with visual bindings. -/
def c1nd : List Node :=
  [⟨1, "", .phi, false, "obj1", true⟩, ⟨2, "", .phi, false, "obj2", true⟩,
   ⟨3, "", .phi, false, "obj3", true⟩]

/-- C1 log: structural nodes 1, 2, 4, then the symbol-table marker. -/
def c1rows : List Row :=
  [nodeRow "1" "phi", nodeRow "2" "phi", nodeRow "4" "phi", symRow]

/-- C2 prior registry: one consistent node with parametrization `phi`. -/
def c2nd : List Node := [⟨1, "", .phi, false, "obj1", true⟩]

/-- C2 log: node 1 re-declared with `mat`, then node 2 with the
unsupported 3-1-3 Euler sequence. -/
def c2rows : List Row := [nodeRow "1" "mat", nodeRow "2" "euler313"]

/-- C5 registry: the target node (label 17) and a bystander (label 99). -/
def c5nd : List Node :=
  [⟨17, "old", .phi, false, "none", true⟩, ⟨99, "keep", .phi, false, "none", true⟩]

/-- C6 counterexample log: a first assignment that changes a label,
then a matched line whose right-hand side is not an integer. -/
def c6lines : List String :=
  ["  integer Node_42 = 17", "  integer Node_x = y"]

/-- C7 counterexample row: the colon-terminated token is the fourth of
five. -/
def c7rw : Row := ["a", "b", "c", "node:", "x"]

/-- C8 counterexample log: a line exactly `"Symbol table"` (no colon),
followed by a structural-node declaration. -/
def c8rows : List Row := [["Symbol", "table"], nodeRow "7" "phi"]

/-- C9 witness registry: five nodes, no visual bindings. -/
def c9nd : List Node :=
  [⟨1, "", .phi, false, "", true⟩, ⟨2, "", .phi, false, "", true⟩,
   ⟨3, "", .phi, false, "", true⟩, ⟨4, "", .phi, false, "", true⟩,
   ⟨5, "", .phi, false, "", true⟩]

/-- C3 witness sample stream. -/
def c3samples : ℤ → V3 := fun i => ⟨(i : ℚ), 2 * (i : ℚ), 5 - (i : ℚ)⟩

/-- The identity rotation matrix. -/
def mat3Id : Mat3 := ⟨1, 0, 0, 0, 1, 0, 0, 0, 1⟩

/-- Rotation by 90° about the z axis. -/
def mat3Rz90 : Mat3 := ⟨0, -1, 0, 1, 0, 0, 0, 0, 1⟩

/-- C4 witness sample stream: identity at step 0, the z-rotation at
every later step. -/
def c4samples : ℤ → Mat3 := fun i => if i = 0 then mat3Id else mat3Rz90

/-- C10 witness row: `beam3` element 7 with distinct offset columns. -/
def c10rw : Row :=
  ["beam3:", "7", "1", "10", "0", "0", "2", "20", "0", "0", "3", "31", "32", "33"]

/-- C10 witness registry: element `beam3_7` with three stale offsets. -/
def c10ed : List Elem :=
  [⟨"elem.beam", "beam3", 7, "", [9, 9, 9],
    [⟨90, 0, 0⟩, ⟨91, 0, 0⟩, ⟨92, 0, 0⟩], "beam3_7", "obj", true⟩]

/-! ## Theorems -/

/-- Both branches of the node-count block keep the parsed registry. -/
theorem finishImport_nd (s : LogState) (a : Status) (outOk : Bool) (numRows : ℕ) :
    (finishImport s a outOk numRows).nd = s.nd := by
  simp only [finishImport]
  split <;> rfl

/-- With a non-empty registry the node-count block derives
`num_timesteps = num_rows / num_nodes` and (out probe permitting)
rewrites the status to `FINISHED`. -/
theorem finishImport_spec (s : LogState) (a : Status) (outOk : Bool) (numRows : ℕ)
    (h : s.nd.length ≠ 0) :
    (finishImport s a outOk numRows).numTimesteps = some (numRows / s.nd.length) ∧
    (outOk = true → (finishImport s a outOk numRows).status = Status.finished) := by
  simp only [finishImport]
  rw [if_pos h]
  exact ⟨rfl, fun ho => by rw [ho]; rfl⟩

/-- Claim C1: re-importing over a registry with structural nodes
{1,2,3} from a log declaring {1,2,4} does classify the pass as
`NODES_INCONSISTENT` (baselib.py line 383) and flags node 3's visual
binding for removal while creating node 4 and updating 1 and 2 in
place — but the node-count block (lines 414-435) then unconditionally
overwrites `ret_val` with `FINISHED`, so the function returns
`FINISHED`, not the claimed `NodesInconsistent`. -/
theorem c1_reimport_classification :
    (parse_log_file (some c1rows) true c1nd [] 40).statusAfterLog
      = Status.nodesInconsistent ∧
    (parse_log_file (some c1rows) true c1nd [] 40).status = Status.finished ∧
    (parse_log_file (some c1rows) true c1nd [] 40).objNames = ["obj3"] ∧
    (parse_log_file (some c1rows) true c1nd [] 40).nd.map Node.int_label
      = [1, 2, 3, 4] := by
  decide

/-- Claim C2: a log declaring node 1 (supported, `mat`) and then node 2
with the unsupported 3-1-3 Euler sequence does abort the declaration
loop via the `TypeError` path and sets `ret_val = ROTATION_ERROR`
(baselib.py lines 396-400) — but the pass has already mutated the
previously-consistent node 1 (parametrization `phi` → `mat`,
imported-this-pass flag set), and the node-count block then overwrites
the fatal status with `FINISHED`. -/
theorem c2_rotation_abort :
    (parse_log_file (some c2rows) true c2nd [] 10).statusAfterLog
      = Status.rotationError ∧
    (parse_log_file (some c2rows) true c2nd [] 10).status = Status.finished ∧
    (parse_log_file (some c2rows) true c2nd [] 10).nd.map
      (fun n => (n.int_label, n.param, n.is_imported)) = [(1, RotParam.mat, true)] ∧
    c2nd.map (fun n => (n.int_label, n.param, n.is_imported))
      = [(1, RotParam.phi, true)] := by
  decide

/-- Claim C9: after a text-backend import pass with a non-empty node
registry, the derived timestep count is `num_rows / num_nodes`
(baselib.py line 432), the product identity holds exactly when
`num_nodes` divides `num_rows`, a non-divisible row count is thereby
detectable, and the pass still finishes with the non-fatal `FINISHED`
status. -/
theorem c9_row_count_coherence (logRows : Option (List Row)) (outOk : Bool)
    (nd0 : List Node) (ed0 : List Elem) (numRows : ℕ)
    (h : (parse_log_file logRows outOk nd0 ed0 numRows).nd.length ≠ 0) :
    (parse_log_file logRows outOk nd0 ed0 numRows).numTimesteps
      = some (numRows / (parse_log_file logRows outOk nd0 ed0 numRows).nd.length) ∧
    ((parse_log_file logRows outOk nd0 ed0 numRows).nd.length ∣ numRows →
      (parse_log_file logRows outOk nd0 ed0 numRows).nd.length
        * (numRows / (parse_log_file logRows outOk nd0 ed0 numRows).nd.length)
        = numRows) ∧
    (¬ (parse_log_file logRows outOk nd0 ed0 numRows).nd.length ∣ numRows →
      (parse_log_file logRows outOk nd0 ed0 numRows).nd.length
        * (numRows / (parse_log_file logRows outOk nd0 ed0 numRows).nd.length)
        ≠ numRows) ∧
    (outOk = true →
      (parse_log_file logRows outOk nd0 ed0 numRows).status = Status.finished) := by
  rcases hsa : logPhase logRows nd0 ed0 with ⟨s, a⟩
  have hpl : parse_log_file logRows outOk nd0 ed0 numRows
      = finishImport s a outOk numRows := by
    unfold parse_log_file
    rw [hsa]
  rw [hpl] at h ⊢
  rw [finishImport_nd] at h ⊢
  obtain ⟨hts, hst⟩ := finishImport_spec s a outOk numRows h
  refine ⟨hts, fun hdvd => Nat.mul_div_cancel' hdvd, fun hndvd heq => ?_, hst⟩
  exact hndvd ⟨numRows / s.nd.length, heq.symm⟩

/-- C9 witness: five nodes and fifty rows derive ten timesteps, the
product identity holds, and the pass returns `FINISHED`. -/
theorem c9_row_count_coherence_witness :
    (parse_log_file (some []) true c9nd [] 50).nd.length ≠ 0 ∧
    (parse_log_file (some []) true c9nd [] 50).numTimesteps
      = some (50 / (parse_log_file (some []) true c9nd [] 50).nd.length) ∧
    ((parse_log_file (some []) true c9nd [] 50).nd.length ∣ 50 →
      (parse_log_file (some []) true c9nd [] 50).nd.length
        * (50 / (parse_log_file (some []) true c9nd [] 50).nd.length) = 50) ∧
    (¬ (parse_log_file (some []) true c9nd [] 50).nd.length ∣ 50 →
      (parse_log_file (some []) true c9nd [] 50).nd.length
        * (50 / (parse_log_file (some []) true c9nd [] 50).nd.length) ≠ 50) ∧
    (true = true → (parse_log_file (some []) true c9nd [] 50).status
      = Status.finished) :=
  ⟨by decide, c9_row_count_coherence (some []) true c9nd [] 50 (by decide)⟩

/-- Claim C10: in `parse_beam3`, the update path stores the columns
11-13 vector into `offsets[1]` (overwriting the columns 7-9 vector
written there the line before) and leaves `offsets[2]` at its pre-call
value, while the creation path stores the columns 11-13 vector into
`offsets[2]`. -/
theorem c10_beam3_stale_offset (rw : Row) (ed : List Elem) (i : ℕ) (el : Elem)
    (rw2 : Row) (ed2 : List Elem)
    (hfind : ed.findIdx? (fun e => e.name = "beam3_" ++ tok rw 1) = some i)
    (hget : ed.getD i (beam3New rw) = el)
    (hlen : 3 ≤ el.offsets.length)
    (hnone : ed2.findIdx? (fun e => e.name = "beam3_" ++ tok rw2 1) = none) :
    (parse_beam3 rw ed).1 = true ∧
    (parse_beam3 rw ed).2 = ed.set i (beam3Update rw el) ∧
    (beam3Update rw el).offsets[1]? = some (beamV3 rw 11) ∧
    (beam3Update rw el).offsets[2]? = el.offsets[2]? ∧
    (parse_beam3 rw2 ed2).1 = false ∧
    (parse_beam3 rw2 ed2).2 = ed2 ++ [beam3New rw2] ∧
    (beam3New rw2).offsets = [beamV3 rw2 3, beamV3 rw2 7, beamV3 rw2 11] := by
  have hup : parse_beam3 rw ed = (true, ed.set i (beam3Update rw el)) := by
    simp only [parse_beam3, hfind]
    rw [hget]
  have hnew : parse_beam3 rw2 ed2 = (false, ed2 ++ [beam3New rw2]) := by
    simp only [parse_beam3, hnone]
  have h1 : (1 : ℕ) < ((el.offsets.set 0 (beamV3 rw 3)).set 1 (beamV3 rw 7)).length := by
    simp only [List.length_set]
    omega
  refine ⟨by rw [hup], by rw [hup], ?_, ?_, by rw [hnew], by rw [hnew], rfl⟩
  · show (((el.offsets.set 0 (beamV3 rw 3)).set 1 (beamV3 rw 7)).set 1
      (beamV3 rw 11))[1]? = some (beamV3 rw 11)
    rw [List.getElem?_set_eq_of_lt _ h1]
  · show (((el.offsets.set 0 (beamV3 rw 3)).set 1 (beamV3 rw 7)).set 1
      (beamV3 rw 11))[2]? = el.offsets[2]?
    rw [List.getElem?_set_ne (by omega), List.getElem?_set_ne (by omega),
      List.getElem?_set_ne (by omega)]

/-- C10 witness: concrete `beam3` row against a registry holding
element `beam3_7`, plus the creation path against an empty registry. -/
theorem c10_beam3_stale_offset_witness :
    c10ed.findIdx? (fun e => e.name = "beam3_" ++ tok c10rw 1) = some 0 ∧
    c10ed.getD 0 (beam3New c10rw)
      = ⟨"elem.beam", "beam3", 7, "", [9, 9, 9],
          [⟨90, 0, 0⟩, ⟨91, 0, 0⟩, ⟨92, 0, 0⟩], "beam3_7", "obj", true⟩ ∧
    3 ≤ ([⟨90, 0, 0⟩, ⟨91, 0, 0⟩, ⟨92, 0, 0⟩] : List V3).length ∧
    ([] : List Elem).findIdx? (fun e => e.name = "beam3_" ++ tok c10rw 1) = none ∧
    ((parse_beam3 c10rw c10ed).1 = true ∧
     (parse_beam3 c10rw c10ed).2 = c10ed.set 0 (beam3Update c10rw
       ⟨"elem.beam", "beam3", 7, "", [9, 9, 9],
         [⟨90, 0, 0⟩, ⟨91, 0, 0⟩, ⟨92, 0, 0⟩], "beam3_7", "obj", true⟩) ∧
     (beam3Update c10rw ⟨"elem.beam", "beam3", 7, "", [9, 9, 9],
         [⟨90, 0, 0⟩, ⟨91, 0, 0⟩, ⟨92, 0, 0⟩], "beam3_7", "obj", true⟩).offsets[1]?
       = some (beamV3 c10rw 11) ∧
     (beam3Update c10rw ⟨"elem.beam", "beam3", 7, "", [9, 9, 9],
         [⟨90, 0, 0⟩, ⟨91, 0, 0⟩, ⟨92, 0, 0⟩], "beam3_7", "obj", true⟩).offsets[2]?
       = ([⟨90, 0, 0⟩, ⟨91, 0, 0⟩, ⟨92, 0, 0⟩] : List V3)[2]? ∧
     (parse_beam3 c10rw []).1 = false ∧
     (parse_beam3 c10rw []).2 = [] ++ [beam3New c10rw] ∧
     (beam3New c10rw).offsets = [beamV3 c10rw 3, beamV3 c10rw 7, beamV3 c10rw 11]) :=
  ⟨by decide, by decide, by decide, by decide,
   c10_beam3_stale_offset c10rw c10ed 0 _ c10rw [] (by decide) (by decide)
     (by decide) (by decide)⟩

/-- Claim C3: the two backends agree on the blend
`frac*s0 + (1-frac)*s1` with `frac = ceil(t) - t` paired with the
earlier sample; `frac = 1` returns the earlier sample exactly,
`frac = 0` the later one, and an intermediate `frac` lands on the
straight segment between them (at parameter `frac` from the later
sample, which lies in `[0, 1]`). -/
theorem c3_interpolation_weights (samples : ℤ → V3) (tdx f : ℚ) (ht : 0 ≤ tdx)
    (hf0 : 0 < f) (hf1 : f < 1) :
    netcdf_helper samples tdx
      = movInterp (fracOfQ tdx) (samples ⌊tdx⌋) (samples ⌈tdx⌉) ∧
    movInterp 1 (samples ⌊tdx⌋) (samples ⌈tdx⌉) = samples ⌊tdx⌋ ∧
    movInterp 0 (samples ⌊tdx⌋) (samples ⌈tdx⌉) = samples ⌈tdx⌉ ∧
    movInterp f (samples ⌊tdx⌋) (samples ⌈tdx⌉)
      = v3add (samples ⌈tdx⌉) (v3smul f (v3sub (samples ⌊tdx⌋) (samples ⌈tdx⌉))) ∧
    0 ≤ f ∧ f ≤ 1 := by
  have hp : pyIntQ tdx = ⌊tdx⌋ := by
    unfold pyIntQ
    rw [if_pos ht]
  unfold netcdf_helper
  rw [hp]
  generalize samples ⌊tdx⌋ = a
  generalize samples ⌈tdx⌉ = b
  obtain ⟨a1, a2, a3⟩ := a
  obtain ⟨b1, b2, b3⟩ := b
  refine ⟨?_, ?_, ?_, ?_, le_of_lt hf0, le_of_lt hf1⟩ <;>
    simp only [movInterp, blenderLerp, fracOfQ, v3add, v3sub, v3smul, V3.mk.injEq] <;>
    refine ⟨by ring, by ring, by ring⟩

/-- C3 witness at `t = 3/2`, `f = 1/2` on a concrete sample stream. -/
theorem c3_interpolation_weights_witness :
    (0 : ℚ) ≤ 3 / 2 ∧ (0 : ℚ) < 1 / 2 ∧ (1 / 2 : ℚ) < 1 ∧
    (netcdf_helper c3samples (3 / 2)
      = movInterp (fracOfQ (3 / 2)) (c3samples ⌊(3 / 2 : ℚ)⌋) (c3samples ⌈(3 / 2 : ℚ)⌉) ∧
    movInterp 1 (c3samples ⌊(3 / 2 : ℚ)⌋) (c3samples ⌈(3 / 2 : ℚ)⌉)
      = c3samples ⌊(3 / 2 : ℚ)⌋ ∧
    movInterp 0 (c3samples ⌊(3 / 2 : ℚ)⌋) (c3samples ⌈(3 / 2 : ℚ)⌉)
      = c3samples ⌈(3 / 2 : ℚ)⌉ ∧
    movInterp (1 / 2) (c3samples ⌊(3 / 2 : ℚ)⌋) (c3samples ⌈(3 / 2 : ℚ)⌉)
      = v3add (c3samples ⌈(3 / 2 : ℚ)⌉) (v3smul (1 / 2)
          (v3sub (c3samples ⌊(3 / 2 : ℚ)⌋) (c3samples ⌈(3 / 2 : ℚ)⌉))) ∧
    (0 : ℚ) ≤ 1 / 2 ∧ (1 / 2 : ℚ) ≤ 1) :=
  ⟨by norm_num, by norm_num, by norm_num,
   c3_interpolation_weights c3samples (3 / 2) (1 / 2) (by norm_num) (by norm_num)
     (by norm_num)⟩

/-- Claim C5 is false as stated: with the line exactly
`integer Node_42 = 17` (no leading indentation) no pattern of the
standard grammar matches and nothing changes, and with the two-space
indented form the assigned string label is the full symbol name
`"Node_42"`, not `"42"`. -/
theorem c5_counterexample :
    (assign_labels false (some ["integer Node_42 = 17"]) c5nd [] []).nd.map
      Node.string_label = ["old", "keep"] ∧
    (assign_labels false (some ["  integer Node_42 = 17"]) c5nd [] []).nd.map
      Node.string_label = ["Node_42", "keep"] ∧
    ("Node_42" : String) ≠ "42" := by
  decide

/-- `assign_label`'s registry loop at a decomposed list: earlier
records don't match, the distinguished one does — the result rewrites
exactly its string label (or changes nothing when it already carries
the label). -/
theorem assignInList_first {α : Type} (gi : α → ℤ) (gs : α → String)
    (ss : α → String → α) (li : ℤ) (ls : String) (pre : List α) (a : α)
    (post : List α) (hpre : ∀ m ∈ pre, gi m ≠ li) (ha : gi a = li) :
    assignInList gi gs ss li ls (pre ++ a :: post)
      = if gs a = ls then (false, pre ++ a :: post)
        else (true, pre ++ ss a ls :: post) := by
  induction pre with
  | nil =>
      simp only [List.nil_append]
      unfold assignInList
      rw [if_pos ha]
      by_cases hgs : gs a = ls
      · rw [if_neg (by simp [hgs]), if_pos hgs]
      · rw [if_pos (by simp [hgs]), if_neg hgs]
  | cons m pre ih =>
      have hm : gi m ≠ li := hpre m (List.mem_cons_self m pre)
      have ih' := ih (fun x hx => hpre x (List.mem_cons_of_mem m hx))
      simp only [List.cons_append]
      unfold assignInList
      rw [if_neg hm, ih']
      by_cases hgs : gs a = ls
      · rw [if_pos hgs, if_pos hgs]
      · rw [if_neg hgs, if_neg hgs]

/-- Claim C5 amended: for the two-space-indented assignment line
`  integer Node_42 = 17` and a standard-mode registry whose node with
integer label 17 is preceded only by non-17 nodes, `assign_labels`
sets that node's string label to the full symbol name `"Node_42"`
(kind prefix kept) and leaves every other node, element and reference
record unchanged. -/
theorem c5_label_roundtrip (pre post : List Node) (n : Node) (ed : List Elem)
    (rd : List Ref) (hpre : pre.all (fun m => m.int_label != 17) = true)
    (hn : n.int_label = 17) :
    (assign_labels false (some ["  integer Node_42 = 17"]) (pre ++ n :: post) ed rd).nd
      = pre ++ { n with string_label := "Node_42" } :: post ∧
    (assign_labels false (some ["  integer Node_42 = 17"]) (pre ++ n :: post) ed rd).ed
      = ed ∧
    (assign_labels false (some ["  integer Node_42 = 17"]) (pre ++ n :: post) ed rd).rd
      = rd := by
  have hpre' : ∀ m ∈ pre, Node.int_label m ≠ 17 := by
    intro m hm
    simpa using List.all_eq_true.mp hpre m hm
  have hfm : findMatch setStringsNode "  integer Node_42 = 17"
      = some "  integer Node_" := by decide
  have hli : lineLabelInt "  integer Node_42 = 17" = some 17 := by decide
  have hls : lineLabelStr false "  integer Node_42 = 17" "node" "  integer Node_"
      = "Node_42" := by decide
  have hstep : lineStep false "  integer Node_42 = 17" (pre ++ n :: post) ed rd
      = some ((if n.string_label = "Node_42" then false else true),
          pre ++ (if n.string_label = "Node_42" then n
            else { n with string_label := "Node_42" }) :: post, ed, rd) := by
    unfold lineStep
    rw [if_neg Bool.false_ne_true, hfm]
    simp only [assignLabelNd, assign_label, hli, hls]
    rw [assignInList_first Node.int_label Node.string_label
      (fun n s => { n with string_label := s }) 17 "Node_42" pre n post hpre' hn]
    by_cases hgs : n.string_label = "Node_42"
    · simp only [if_pos hgs]
    · simp only [if_neg hgs]
  have hrecord : (if n.string_label = "Node_42" then n
      else { n with string_label := "Node_42" }) = { n with string_label := "Node_42" } := by
    by_cases hgs : n.string_label = "Node_42"
    · rw [if_pos hgs]
      cases n
      simp_all
    · rw [if_neg hgs]
  simp only [assign_labels, labelsLoop, hstep, hrecord]
  exact ⟨trivial, trivial, trivial⟩

/-- C5 witness: the concrete registry of `c5nd` decomposed around its
label-17 node. -/
theorem c5_label_roundtrip_witness :
    (([] : List Node).all (fun m => m.int_label != 17) = true) ∧
    (⟨17, "old", .phi, false, "none", true⟩ : Node).int_label = 17 ∧
    ((assign_labels false (some ["  integer Node_42 = 17"])
        ([] ++ (⟨17, "old", .phi, false, "none", true⟩ : Node) ::
          [⟨99, "keep", .phi, false, "none", true⟩]) [] []).nd
      = [] ++ ({ (⟨17, "old", .phi, false, "none", true⟩ : Node) with
          string_label := "Node_42" } : Node) ::
          [⟨99, "keep", .phi, false, "none", true⟩] ∧
    (assign_labels false (some ["  integer Node_42 = 17"])
        ([] ++ (⟨17, "old", .phi, false, "none", true⟩ : Node) ::
          [⟨99, "keep", .phi, false, "none", true⟩]) [] []).ed = [] ∧
    (assign_labels false (some ["  integer Node_42 = 17"])
        ([] ++ (⟨17, "old", .phi, false, "none", true⟩ : Node) ::
          [⟨99, "keep", .phi, false, "none", true⟩]) [] []).rd = []) :=
  ⟨by decide, by decide,
   c5_label_roundtrip [] [⟨99, "keep", .phi, false, "none", true⟩]
     ⟨17, "old", .phi, false, "none", true⟩ [] [] (by decide) (by decide)⟩

/-- Claim C7 is false as stated: in this five-token row the fourth
token ends in `:`, yet the scan stops at `min(3, len-1) = 3` and the
row is skipped, so "a colon-ending token among the first four"
does not characterise entity declarations. -/
theorem c7_counterexample :
    (∃ i, i < min 4 c7rw.length ∧ endsColon (tok c7rw i) = true) ∧
    (classifyRow c7rw).1 = RowClass.skipRow :=
  ⟨⟨3, by decide, by decide⟩, by decide⟩

/-- Claim C8 is false as stated: a line whose content is exactly
`Symbol table` (as the csv reader delivers it) does not satisfy
`entry[:-1] == "Symbol table"`, so the loop keeps going and parses the
following structural-node declaration; the loop then ends by
exhausting the file, not at the marker. -/
theorem c8_counterexample :
    (runRows c8rows ⟨true, true, [], []⟩).1.nd.map Node.int_label = [7] ∧
    (runRows c8rows ⟨true, true, [], []⟩).2 = LoopExit.eof := by
  decide

/-- `assign_label`'s registry loop only rewrites string labels: any
projection insensitive to the setter is preserved. -/
theorem assignInList_map {α β : Type} (gi : α → ℤ) (gs : α → String)
    (ss : α → String → α) (li : ℤ) (ls : String) (proj : α → β)
    (hproj : ∀ a s, proj (ss a s) = proj a) (l : List α) :
    ((assignInList gi gs ss li ls l).2).map proj = l.map proj := by
  induction l with
  | nil => rfl
  | cons a t ih =>
      rcases hrec : assignInList gi gs ss li ls t with ⟨b, t'⟩
      rw [hrec] at ih
      unfold assignInList
      by_cases h : gi a = li
      · rw [if_pos h]
        by_cases h2 : gs a ≠ ls
        · rw [if_pos h2]
          simp only [List.map_cons, hproj]
        · rw [if_neg h2]
      · rw [if_neg h, hrec]
        simp only [List.map_cons, ih]

/-- When `assign_label`'s loop reports no change, the registry is
returned verbatim. -/
theorem assignInList_false {α : Type} (gi : α → ℤ) (gs : α → String)
    (ss : α → String → α) (li : ℤ) (ls : String) (l : List α)
    (h : (assignInList gi gs ss li ls l).1 = false) :
    (assignInList gi gs ss li ls l).2 = l := by
  induction l with
  | nil => rfl
  | cons a t ih =>
      rcases hrec : assignInList gi gs ss li ls t with ⟨b, t'⟩
      rw [hrec] at ih
      unfold assignInList at h ⊢
      by_cases hgi : gi a = li
      · rw [if_pos hgi] at h ⊢
        by_cases h2 : gs a ≠ ls
        · rw [if_pos h2] at h
          exact absurd h (by simp)
        · rw [if_neg h2]
      · rw [if_neg hgi, hrec] at h ⊢
        have hb : b = false := by simpa using h
        simp only [List.cons.injEq, true_and]
        exact ih (by rw [hb])

/-- One line of the label pass: either the uncaught `ValueError` (and
then the line was not well-formed), or a successful step that keeps
every identity-relevant field and, when it reports no change, the
registries themselves. -/
theorem lineStep_spec (free : Bool) (line : String) (nd : List Node)
    (ed : List Elem) (rd : List Ref) :
    (lineStep free line nd ed rd = none ∧ lineOK free line = false) ∨
    (∃ c nd' ed' rd', lineStep free line nd ed rd = some (c, nd', ed', rd') ∧
      ndShape nd' = ndShape nd ∧ edShape ed' = edShape ed ∧
      rdShape rd' = rdShape rd ∧
      (c = false → nd' = nd ∧ ed' = ed ∧ rd' = rd)) := by
  have hndm := fun li ls => assignInList_map Node.int_label Node.string_label
    (fun n s => { n with string_label := s }) li ls
    (fun n => (n.int_label, n.param, n.output, n.blender_object, n.is_imported))
    (fun _ _ => rfl) nd
  have hedm := fun li ls => assignInList_map Elem.int_label Elem.string_label
    (fun e s => { e with string_label := s }) li ls
    (fun e => (e.mbclass, e.etype, e.int_label, e.nodes, e.offsets,
      e.name, e.blender_object, e.is_imported)) (fun _ _ => rfl) ed
  have hrdm := fun li ls => assignInList_map Ref.int_label Ref.string_label
    (fun r s => { r with string_label := s }) li ls Ref.int_label
    (fun _ _ => rfl) rd
  cases free with
  | true =>
      unfold lineStep
      rw [if_pos rfl]
      cases hfm : findMatch setStringsAny line with
      | none =>
          exact .inr ⟨false, nd, ed, rd, rfl, rfl, rfl, rfl,
            fun _ => ⟨rfl, rfl, rfl⟩⟩
      | some s =>
          cases hli : lineLabelInt line with
          | none =>
              refine .inl ⟨by simp [assignLabelNd, assign_label, hli], ?_⟩
              simp [lineOK, hfm, hli]
          | some li =>
              simp only [assignLabelNd, assignLabelEd, assignLabelRd,
                assign_label, hli]
              refine .inr ⟨_, _, _, _, rfl, hndm li _, hedm li _, hrdm li _,
                fun hc => ?_⟩
              have h1 : (assignInList Node.int_label Node.string_label
                  (fun n s => { n with string_label := s }) li
                  (lineLabelStr true line "" s) nd).1 = false := by
                rcases Bool.or_eq_false_iff.mp
                  (Bool.or_eq_false_iff.mp hc).1 with ⟨h, _⟩
                exact h
              have h2 : (assignInList Elem.int_label Elem.string_label
                  (fun e s => { e with string_label := s }) li
                  (lineLabelStr true line "" s) ed).1 = false :=
                (Bool.or_eq_false_iff.mp (Bool.or_eq_false_iff.mp hc).1).2
              have h3 : (assignInList Ref.int_label Ref.string_label
                  (fun r s => { r with string_label := s }) li
                  (lineLabelStr true line "" s) rd).1 = false :=
                (Bool.or_eq_false_iff.mp hc).2
              exact ⟨assignInList_false _ _ _ _ _ _ h1,
                assignInList_false _ _ _ _ _ _ h2,
                assignInList_false _ _ _ _ _ _ h3⟩
  | false =>
      unfold lineStep
      rw [if_neg Bool.false_ne_true]
      cases hfm1 : findMatch setStringsNode line with
      | some s =>
          cases hli : lineLabelInt line with
          | none =>
              refine .inl ⟨by simp [assignLabelNd, assign_label, hli], ?_⟩
              simp [lineOK, hfm1, hli]
          | some li =>
              simp only [assignLabelNd, assign_label, hli]
              exact .inr ⟨_, _, _, _, rfl, hndm li _, rfl, rfl,
                fun hc => ⟨assignInList_false _ _ _ _ _ _ hc, rfl, rfl⟩⟩
      | none =>
          cases hfm2 : findMatch setStringsJoint line with
          | some s =>
              cases hli : lineLabelInt line with
              | none =>
                  refine .inl ⟨by simp [assignLabelEd, assign_label, hli], ?_⟩
                  simp [lineOK, hfm2, hli]
              | some li =>
                  simp only [assignLabelEd, assign_label, hli]
                  exact .inr ⟨_, _, _, _, rfl, rfl, hedm li _, rfl,
                    fun hc => ⟨rfl, assignInList_false _ _ _ _ _ _ hc, rfl⟩⟩
          | none =>
              cases hfm3 : findMatch setStringsBeam line with
              | some s =>
                  cases hli : lineLabelInt line with
                  | none =>
                      refine .inl ⟨by simp [assignLabelEd, assign_label, hli], ?_⟩
                      simp [lineOK, hfm3, hli]
                  | some li =>
                      simp only [assignLabelEd, assign_label, hli]
                      exact .inr ⟨_, _, _, _, rfl, rfl, hedm li _, rfl,
                        fun hc => ⟨rfl, assignInList_false _ _ _ _ _ _ hc, rfl⟩⟩
              | none =>
                  cases hfm4 : findMatch setStringsRefs line with
                  | some s =>
                      cases hli : lineLabelInt line with
                      | none =>
                          refine .inl
                            ⟨by simp [assignLabelRd, assign_label, hli], ?_⟩
                          simp [lineOK, hfm4, hli]
                      | some li =>
                          simp only [assignLabelRd, assign_label, hli]
                          exact .inr ⟨_, _, _, _, rfl, rfl, rfl, hrdm li _,
                            fun hc =>
                              ⟨rfl, rfl, assignInList_false _ _ _ _ _ _ hc⟩⟩
                  | none =>
                      exact .inr ⟨false, nd, ed, rd, rfl, rfl, rfl, rfl,
                        fun _ => ⟨rfl, rfl, rfl⟩⟩

/-- Invariants of the label-pass line loop: identity-relevant fields
are preserved, a well-formed log yields one of the two normal
statuses, and `NOTHING_DONE` certifies that nothing was touched. -/
theorem labelsLoop_spec (free : Bool) (lines : List String) :
    ∀ (changed : Bool) (nd : List Node) (ed : List Elem) (rd : List Ref),
    (ndShape (labelsLoop free lines changed nd ed rd).nd = ndShape nd ∧
     edShape (labelsLoop free lines changed nd ed rd).ed = edShape ed ∧
     rdShape (labelsLoop free lines changed nd ed rd).rd = rdShape rd) ∧
    (linesOK free lines = true →
      ((labelsLoop free lines changed nd ed rd).out
          = LabelOutcome.ok LabelStatus.labelsUpdated ∨
       (labelsLoop free lines changed nd ed rd).out
          = LabelOutcome.ok LabelStatus.nothingDone)) ∧
    ((labelsLoop free lines changed nd ed rd).out
        = LabelOutcome.ok LabelStatus.nothingDone →
      changed = false ∧ (labelsLoop free lines changed nd ed rd).nd = nd ∧
      (labelsLoop free lines changed nd ed rd).ed = ed ∧
      (labelsLoop free lines changed nd ed rd).rd = rd) := by
  induction lines with
  | nil =>
      intro changed nd ed rd
      refine ⟨⟨rfl, rfl, rfl⟩, fun _ => ?_, fun hnd => ?_⟩
      · cases changed
        · exact .inr rfl
        · exact .inl rfl
      · cases changed
        · exact ⟨rfl, rfl, rfl, rfl⟩
        · exact absurd hnd (by simp [labelsLoop])
  | cons line rest ih =>
      intro changed nd ed rd
      rcases lineStep_spec free line nd ed rd with
        ⟨hnone, hnotok⟩ | ⟨c, nd', ed', rd', hsome, hn, he, hr, hfalse⟩
      · have hloop : labelsLoop free (line :: rest) changed nd ed rd
            = ⟨.valueError, nd, ed, rd⟩ := by
          unfold labelsLoop
          rw [hnone]
        rw [hloop]
        refine ⟨⟨rfl, rfl, rfl⟩, fun hok => ?_, fun hnd => by cases hnd⟩
        have : lineOK free line = true := by
          have := hok
          unfold linesOK at this
          rw [List.all_cons] at this
          exact (Bool.and_eq_true_iff.mp this).1
        rw [hnotok] at this
        cases this
      · have hloop : labelsLoop free (line :: rest) changed nd ed rd
            = labelsLoop free rest (changed || c) nd' ed' rd' := by
          simp only [labelsLoop, hsome]
        rw [hloop]
        obtain ⟨⟨ihn, ihe, ihr⟩, ihok, ihnd⟩ := ih (changed || c) nd' ed' rd'
        refine ⟨⟨ihn.trans hn, ihe.trans he, ihr.trans hr⟩, fun hok => ?_,
          fun hnd => ?_⟩
        · refine ihok ?_
          have := hok
          unfold linesOK at this ⊢
          rw [List.all_cons] at this
          exact (Bool.and_eq_true_iff.mp this).2
        · obtain ⟨hcc, h1, h2, h3⟩ := ihnd hnd
          rcases Bool.or_eq_false_iff.mp hcc with ⟨hch, hc⟩
          obtain ⟨g1, g2, g3⟩ := hfalse hc
          exact ⟨hch, h1.trans g1, h2.trans g2, h3.trans g3⟩

/-- Claim C6 is false as stated: on this log the first line updates a
stored string label, but the second matched line has a non-integer
right-hand side, so `int(...)` raises an uncaught `ValueError` and
`assign_labels` returns none of its three statuses (in particular not
`LABELS_UPDATED`, although a label changed). -/
theorem c6_counterexample :
    (assign_labels false (some c6lines) c5nd [] []).out
      = LabelOutcome.valueError ∧
    (assign_labels false (some c6lines) c5nd [] []).nd.map Node.string_label
      = ["Node_42", "keep"] := by
  decide

/-- Claim C6 amended: `assign_labels` never creates or removes
registry entities — every field except the string label is preserved
verbatim for all three registries — and, provided every matched
assignment line carries an integer right-hand side (otherwise the pass
aborts with an uncaught `ValueError`), it returns `FILE_NOT_FOUND`
when the log cannot be opened and otherwise `LABELS_UPDATED` or
`NOTHING_DONE`, with `NOTHING_DONE` certifying that no stored label
changed and any change forcing `LABELS_UPDATED`. -/
theorem c6_label_resolver_effect (freeLabels : Bool)
    (logLines : Option (List String)) (nd : List Node) (ed : List Elem)
    (rd : List Ref) (hok : Option.all (linesOK freeLabels) logLines = true) :
    ndShape (assign_labels freeLabels logLines nd ed rd).nd = ndShape nd ∧
    edShape (assign_labels freeLabels logLines nd ed rd).ed = edShape ed ∧
    rdShape (assign_labels freeLabels logLines nd ed rd).rd = rdShape rd ∧
    (logLines = none → assign_labels freeLabels logLines nd ed rd
      = ⟨LabelOutcome.ok LabelStatus.fileNotFound, nd, ed, rd⟩) ∧
    (logLines ≠ none →
      ((assign_labels freeLabels logLines nd ed rd).out
          = LabelOutcome.ok LabelStatus.labelsUpdated ∨
       (assign_labels freeLabels logLines nd ed rd).out
          = LabelOutcome.ok LabelStatus.nothingDone)) ∧
    ((assign_labels freeLabels logLines nd ed rd).out
        = LabelOutcome.ok LabelStatus.nothingDone →
      (assign_labels freeLabels logLines nd ed rd).nd = nd ∧
      (assign_labels freeLabels logLines nd ed rd).ed = ed ∧
      (assign_labels freeLabels logLines nd ed rd).rd = rd) ∧
    (((assign_labels freeLabels logLines nd ed rd).nd ≠ nd ∨
      (assign_labels freeLabels logLines nd ed rd).ed ≠ ed ∨
      (assign_labels freeLabels logLines nd ed rd).rd ≠ rd) →
      (assign_labels freeLabels logLines nd ed rd).out
        = LabelOutcome.ok LabelStatus.labelsUpdated) := by
  cases logLines with
  | none =>
      refine ⟨rfl, rfl, rfl, fun _ => rfl, fun hne => absurd rfl hne,
        fun _ => ⟨rfl, rfl, rfl⟩, fun hne => ?_⟩
      rcases hne with h | h | h <;> exact absurd rfl h
  | some lines =>
      have hlok : linesOK freeLabels lines = true := by simpa using hok
      obtain ⟨⟨hn, he, hr⟩, hout, hnd⟩ :=
        labelsLoop_spec freeLabels lines false nd ed rd
      have hal : assign_labels freeLabels (some lines) nd ed rd
          = labelsLoop freeLabels lines false nd ed rd := rfl
      rw [hal]
      refine ⟨hn, he, hr, ?_, ?_, ?_, ?_⟩
      · intro h
        exact Option.noConfusion h
      · intro _
        exact hout hlok
      · intro h
        exact (hnd h).2
      · intro hne
        rcases hout hlok with h | h
        · exact h
        · obtain ⟨_, h1, h2, h3⟩ := hnd h
          rcases hne with hx | hx | hx
          · exact absurd h1 hx
          · exact absurd h2 hx
          · exact absurd h3 hx

/-- C6 witness: the standard-mode pass on a well-formed one-line log
over concrete registries. -/
theorem c6_label_resolver_effect_witness :
    Option.all (linesOK false) (some ["  integer Node_42 = 17"]) = true ∧
    (ndShape (assign_labels false (some ["  integer Node_42 = 17"]) c5nd [] []).nd
      = ndShape c5nd ∧
    edShape (assign_labels false (some ["  integer Node_42 = 17"]) c5nd [] []).ed
      = edShape [] ∧
    rdShape (assign_labels false (some ["  integer Node_42 = 17"]) c5nd [] []).rd
      = rdShape [] ∧
    (some ["  integer Node_42 = 17"] = none →
      assign_labels false (some ["  integer Node_42 = 17"]) c5nd [] []
        = ⟨LabelOutcome.ok LabelStatus.fileNotFound, c5nd, [], []⟩) ∧
    (some ["  integer Node_42 = 17"] ≠ none →
      ((assign_labels false (some ["  integer Node_42 = 17"]) c5nd [] []).out
          = LabelOutcome.ok LabelStatus.labelsUpdated ∨
       (assign_labels false (some ["  integer Node_42 = 17"]) c5nd [] []).out
          = LabelOutcome.ok LabelStatus.nothingDone)) ∧
    ((assign_labels false (some ["  integer Node_42 = 17"]) c5nd [] []).out
        = LabelOutcome.ok LabelStatus.nothingDone →
      (assign_labels false (some ["  integer Node_42 = 17"]) c5nd [] []).nd = c5nd ∧
      (assign_labels false (some ["  integer Node_42 = 17"]) c5nd [] []).ed = [] ∧
      (assign_labels false (some ["  integer Node_42 = 17"]) c5nd [] []).rd = []) ∧
    (((assign_labels false (some ["  integer Node_42 = 17"]) c5nd [] []).nd ≠ c5nd ∨
      (assign_labels false (some ["  integer Node_42 = 17"]) c5nd [] []).ed ≠ [] ∨
      (assign_labels false (some ["  integer Node_42 = 17"]) c5nd [] []).rd ≠ []) →
      (assign_labels false (some ["  integer Node_42 = 17"]) c5nd [] []).out
        = LabelOutcome.ok LabelStatus.labelsUpdated)) :=
  ⟨by decide,
   c6_label_resolver_effect false (some ["  integer Node_42 = 17"]) c5nd [] []
     (by decide)⟩

/-- Appending one token to a non-empty join inserts one space. -/
theorem joinSpace_append (xs : List String) (y : String) (hx : xs ≠ []) :
    joinSpace (xs ++ [y]) = joinSpace xs ++ " " ++ y := by
  cases xs with
  | nil => exact absurd rfl hx
  | cons h t => simp [joinSpace, List.foldl_append]

/-- Extending the taken explicit-token join by the next token. -/
theorem joinSpace_take_succ (rw : Row) (j : ℕ) (h : j + 1 < rw.length) :
    joinSpace (rw.take (j + 2)) = joinSpace (rw.take (j + 1)) ++ " " ++ tok rw (j + 1) := by
  have htk : rw.take (j + 2) = rw.take (j + 1) ++ [rw[j + 1]] := by
    rw [List.take_succ, List.getElem?_eq_getElem h]
    rfl
  have htok : tok rw (j + 1) = rw[j + 1] := by
    unfold tok
    rw [List.getD_eq_getElem?_getD, List.getElem?_eq_getElem h]
    rfl
  rw [htk, htok, joinSpace_append]
  intro hnil
  rw [List.take_eq_nil_iff] at hnil
  rcases hnil with h1 | h1
  · omega
  · rw [h1] at h
    simp at h

/-- The inner token scan, characterised: starting at index `ii` with
the join of the first `ii + 1` tokens as accumulated entry and fuel
`m - ii`, the loop stops at the first colon-terminated token before
`m` (or at `m`), its entry being the join of the tokens up to the stop
index. -/
theorem scanAux_spec (rw : Row) (m : ℕ) (hm : m + 1 ≤ rw.length) :
    ∀ (k ii : ℕ), ii + k = m →
    scanAux rw k ii (joinSpace (rw.take (ii + 1)))
      = match (List.range' ii k).find? (fun i => endsColon (tok rw i)) with
        | some j => (j, joinSpace (rw.take (j + 1)))
        | none => (m, joinSpace (rw.take (m + 1))) := by
  intro k
  induction k with
  | zero =>
      intro ii hii
      have hiim : ii = m := by omega
      subst hiim
      simp only [List.range'_zero, List.find?_nil]
      rfl
  | succ k ihk =>
      intro ii hii
      rw [List.range'_succ]
      unfold scanAux
      by_cases hc : endsColon (tok rw ii) = true
      · rw [if_pos hc]
        simp only [List.find?_cons, hc]
      · have hc' : endsColon (tok rw ii) = false := by simpa using hc
        rw [if_neg hc]
        have hjj : joinSpace (rw.take (ii + 1)) ++ " " ++ tok rw (ii + 1)
            = joinSpace (rw.take (ii + 1 + 1)) :=
          (joinSpace_take_succ rw ii (by omega)).symm
        rw [hjj, ihk (ii + 1) (by omega)]
        simp only [List.find?_cons, hc']

/-- Claim C7 amended: the row classification of the declaration loop
agrees with the declarative rule — a row is an entity declaration
exactly when a token strictly before index `min 3 (len - 1)` ends in
`:`, the entity-kind tag is the space-join of the tokens up to and
including the first such token, tag `"structural node:"` selects the
node sub-parser, and any other tag goes colon-stripped to the element
sub-parser. -/
theorem classifyRow_fst (rw : Row) :
    (classifyRow rw).1 =
      (if (scanAux rw (min 3 (rw.length - 1)) 0 (tok rw 0)).1 = min 3 (rw.length - 1)
       then RowClass.skipRow
       else if (scanAux rw (min 3 (rw.length - 1)) 0 (tok rw 0)).2 = "structural node:"
       then RowClass.nodeDecl
       else RowClass.elemDecl
         (dropLastChar (scanAux rw (min 3 (rw.length - 1)) 0 (tok rw 0)).2)) := by
  rcases h : scanAux rw (min 3 (rw.length - 1)) 0 (tok rw 0) with ⟨ii, entry⟩
  simp only [classifyRow, h]
  split
  · rfl
  · split <;> rfl

theorem c7_declaration_detection (rw : Row) :
    (classifyRow rw).1 = claimC7classify rw := by
  cases rw with
  | nil => rfl
  | cons a t =>
      have hm : min 3 ((a :: t).length - 1) + 1 ≤ (a :: t).length := by
        simp only [List.length_cons]
        omega
      have hspec := scanAux_spec (a :: t) (min 3 ((a :: t).length - 1)) hm
        (min 3 ((a :: t).length - 1)) 0 (by omega)
      simp only [Nat.zero_add] at hspec
      have h0 : tok (a :: t) 0 = joinSpace ((a :: t).take 1) := by
        simp [tok, joinSpace]
      rw [classifyRow_fst, h0, hspec]
      unfold claimC7classify specFirstColon
      rw [List.range_eq_range']
      cases hf : (List.range' 0 (min 3 ((a :: t).length - 1))).find?
          (fun i => endsColon (tok (a :: t) i)) with
      | none => simp
      | some j =>
          have hj : j < min 3 ((a :: t).length - 1) := by
            have hmem := List.mem_of_find?_eq_some hf
            rw [List.mem_range'_1] at hmem
            omega
          simp only
          rw [if_neg (by omega : ¬ j = min 3 ((a :: t).length - 1))]

/-- Claim C8 amended: the declaration loop terminates at the row read
from the line `Symbol table:` — the comparison strips the trailing
character of the accumulated entry, so the marker line carries a
colon, and a line exactly `Symbol table` does not stop the loop — or
at end of file; rows after a `Symbol table:` row are never consumed,
whatever precedes them. -/
theorem runRows_cons (rw : Row) (rest : List Row) (s : LogState) :
    runRows (rw :: rest) s =
      match applyClass (classifyRow rw).1 rw s with
      | none => (s, LoopExit.rotErr)
      | some s2 =>
          if dropLastChar (classifyRow rw).2 = "Symbol table"
          then (s2, LoopExit.terminator)
          else runRows rest s2 := by
  rcases hce : classifyRow rw with ⟨c, entry⟩
  conv_lhs => unfold runRows
  rw [hce]

theorem c8_symbol_table_termination (rows1 rows2 : List Row) (s : LogState) :
    runRows (rows1 ++ symRow :: rows2) s = runRows (rows1 ++ [symRow]) s := by
  induction rows1 generalizing s with
  | nil => rfl
  | cons r rest1 ih =>
      simp only [List.cons_append, runRows_cons]
      cases happ : applyClass (classifyRow r).1 r s with
      | none => rfl
      | some s2 =>
          dsimp only
          by_cases hterm : dropLastChar (classifyRow r).2 = "Symbol table"
          · rw [if_pos hterm, if_pos hterm]
          · rw [if_neg hterm, if_neg hterm]
            exact ih s2

/-- Additivity of the quaternion dot product in its left argument. -/
theorem qdot_qadd_left (u v w : Quat) : qdot (qadd u v) w = qdot u w + qdot v w := by
  simp only [qdot, qadd]
  ring

/-- Homogeneity of the quaternion dot product in its left argument. -/
theorem qdot_qsmul_left (c : ℝ) (u w : Quat) : qdot (qsmul c u) w = c * qdot u w := by
  simp only [qdot, qsmul]
  ring

/-- Symmetry of the quaternion dot product. -/
theorem qdot_comm (u v : Quat) : qdot u v = qdot v u := by
  simp only [qdot]
  ring

/-- Negation in the left argument of the quaternion dot product. -/
theorem qdot_qneg_left (u w : Quat) : qdot (qneg u) w = -qdot u w := by
  simp only [qdot, qneg]
  ring

/-- Shortest-arc slerp at parameter `1/2` sits at equal (absolute)
cosine — hence equal angular distance — from both unit endpoints: in
every branch the two blend coefficients coincide, so the result is a
common multiple of `a + b'` with `b'` the hemisphere-corrected second
quaternion. -/
theorem slerp_half_equidistant (a b : Quat) (ha : qdot a a = 1)
    (hb : qdot b b = 1) :
    |qdot (slerp a b (1 / 2)) a| = |qdot (slerp a b (1 / 2)) b| := by
  unfold slerp
  dsimp only
  have h12 : (1 : ℝ) - 1 / 2 = 1 / 2 := by norm_num
  rw [h12]
  by_cases hd : qdot a b < 0
  · rw [if_pos hd, if_pos hd]
    by_cases hbr : 1 - -qdot a b > 1 / 10000
    · rw [if_pos hbr]
      generalize Real.sin (1 / 2 * Real.arccos (-qdot a b))
        / Real.sin (Real.arccos (-qdot a b)) = k
      rw [qdot_qadd_left, qdot_qadd_left, qdot_qsmul_left, qdot_qsmul_left,
        qdot_qsmul_left, qdot_qsmul_left, ha, qdot_qneg_left, qdot_qneg_left,
        hb, qdot_comm b a]
      rw [show k * qdot a b + k * -1 = -(k * 1 + k * -qdot a b) from by ring,
        abs_neg]
    · rw [if_neg hbr]
      rw [qdot_qadd_left, qdot_qadd_left, qdot_qsmul_left, qdot_qsmul_left,
        qdot_qsmul_left, qdot_qsmul_left, ha, qdot_qneg_left, qdot_qneg_left,
        hb, qdot_comm b a]
      rw [show (1 : ℝ) / 2 * qdot a b + 1 / 2 * -1
          = -(1 / 2 * 1 + 1 / 2 * -qdot a b) from by ring, abs_neg]
  · rw [if_neg hd, if_neg hd]
    by_cases hbr : 1 - qdot a b > 1 / 10000
    · rw [if_pos hbr]
      generalize Real.sin (1 / 2 * Real.arccos (qdot a b))
        / Real.sin (Real.arccos (qdot a b)) = k
      rw [qdot_qadd_left, qdot_qadd_left, qdot_qsmul_left, qdot_qsmul_left,
        qdot_qsmul_left, qdot_qsmul_left, ha, hb, qdot_comm b a]
      rw [show k * qdot a b + k * 1 = k * 1 + k * qdot a b from by ring]
    · rw [if_neg hbr]
      rw [qdot_qadd_left, qdot_qadd_left, qdot_qsmul_left, qdot_qsmul_left,
        qdot_qsmul_left, qdot_qsmul_left, ha, hb, qdot_comm b a]
      rw [show (1 : ℝ) / 2 * qdot a b + 1 / 2 * 1
          = 1 / 2 * 1 + 1 / 2 * qdot a b from by ring]

/-- Claim C4: for a `MATRIX`-parametrized node the NetCDF helper
interpolates by converting the two bracketing (transposed) rotation
matrices to quaternions and slerping from the earlier to the later one
with parameter `1 - frac`; when `frac = 1/2` and the conversions yield
unit quaternions, the result's absolute cosine — hence its angular
distance — to the two endpoint quaternions is equal. -/
theorem c4_matrix_slerp (samples : ℤ → Mat3) (tdx : ℝ) (ht : 0 ≤ tdx)
    (hfrac : (⌈tdx⌉ : ℝ) - tdx = 1 / 2)
    (hq0 : qdot (matToQuat (samples ⌊tdx⌋).transposed)
        (matToQuat (samples ⌊tdx⌋).transposed) = 1)
    (hq1 : qdot (matToQuat (samples ⌈tdx⌉).transposed)
        (matToQuat (samples ⌈tdx⌉).transposed) = 1) :
    netcdf_helper_quat samples tdx
      = slerp (matToQuat (samples ⌊tdx⌋).transposed)
          (matToQuat (samples ⌈tdx⌉).transposed) (1 / 2) ∧
    |qdot (netcdf_helper_quat samples tdx)
        (matToQuat (samples ⌊tdx⌋).transposed)|
      = |qdot (netcdf_helper_quat samples tdx)
          (matToQuat (samples ⌈tdx⌉).transposed)| := by
  have hp : pyIntR tdx = ⌊tdx⌋ := by
    unfold pyIntR
    rw [if_pos ht]
  have heq : netcdf_helper_quat samples tdx
      = slerp (matToQuat (samples ⌊tdx⌋).transposed)
          (matToQuat (samples ⌈tdx⌉).transposed) (1 / 2) := by
    unfold netcdf_helper_quat
    rw [hp, hfrac]
    norm_num
  refine ⟨heq, ?_⟩
  rw [heq]
  exact slerp_half_equidistant _ _ hq0 hq1

/-- The conversion of the identity matrix is a unit quaternion. -/
theorem matToQuat_id_unit :
    qdot (matToQuat mat3Id.transposed) (matToQuat mat3Id.transposed) = 1 := by
  unfold matToQuat Mat3.transposed mat3Id qdot
  norm_num
  rw [show (1 : ℝ) / 4 * (2 * Real.sqrt 4) * (1 / 4 * (2 * Real.sqrt 4))
      = Real.sqrt 4 * Real.sqrt 4 * (1 / 4) from by ring,
    Real.mul_self_sqrt (by norm_num : (0 : ℝ) ≤ 4)]
  norm_num

/-- The conversion of the 90°-about-z rotation is a unit quaternion. -/
theorem matToQuat_rz90_unit :
    qdot (matToQuat mat3Rz90.transposed) (matToQuat mat3Rz90.transposed) = 1 := by
  unfold matToQuat Mat3.transposed mat3Rz90 qdot
  norm_num
  have hne : Real.sqrt 2 ≠ 0 := by
    rw [Real.sqrt_ne_zero']
    norm_num
  field_simp
  ring_nf
  rw [show Real.sqrt 2 ^ 4 = (Real.sqrt 2 ^ 2) ^ 2 from by ring,
    Real.sq_sqrt (by norm_num : (0 : ℝ) ≤ 2)]
  norm_num

/-- C4 witness: bracketing samples `identity` (step 0) and `Rz(90°)`
(step 1) at `tdx = 1/2`, i.e. `frac = 1/2`. -/
theorem c4_matrix_slerp_witness :
    (0 : ℝ) ≤ 1 / 2 ∧
    ((⌈(1 / 2 : ℝ)⌉ : ℝ) - 1 / 2 = 1 / 2) ∧
    qdot (matToQuat (c4samples ⌊(1 / 2 : ℝ)⌋).transposed)
        (matToQuat (c4samples ⌊(1 / 2 : ℝ)⌋).transposed) = 1 ∧
    qdot (matToQuat (c4samples ⌈(1 / 2 : ℝ)⌉).transposed)
        (matToQuat (c4samples ⌈(1 / 2 : ℝ)⌉).transposed) = 1 ∧
    (netcdf_helper_quat c4samples (1 / 2)
        = slerp (matToQuat (c4samples ⌊(1 / 2 : ℝ)⌋).transposed)
            (matToQuat (c4samples ⌈(1 / 2 : ℝ)⌉).transposed) (1 / 2) ∧
     |qdot (netcdf_helper_quat c4samples (1 / 2))
         (matToQuat (c4samples ⌊(1 / 2 : ℝ)⌋).transposed)|
       = |qdot (netcdf_helper_quat c4samples (1 / 2))
           (matToQuat (c4samples ⌈(1 / 2 : ℝ)⌉).transposed)|) := by
  have hfl : (⌊(1 / 2 : ℝ)⌋ : ℤ) = 0 := by
    rw [Int.floor_eq_iff]
    norm_num
  have hcl : (⌈(1 / 2 : ℝ)⌉ : ℤ) = 1 := by
    rw [Int.ceil_eq_iff]
    norm_num
  have ht : (0 : ℝ) ≤ 1 / 2 := by norm_num
  have hfrac : (⌈(1 / 2 : ℝ)⌉ : ℝ) - 1 / 2 = 1 / 2 := by
    rw [hcl]
    norm_num
  have hq0 : qdot (matToQuat (c4samples ⌊(1 / 2 : ℝ)⌋).transposed)
      (matToQuat (c4samples ⌊(1 / 2 : ℝ)⌋).transposed) = 1 := by
    rw [hfl, show c4samples (0 : ℤ) = mat3Id from rfl]
    exact matToQuat_id_unit
  have hq1 : qdot (matToQuat (c4samples ⌈(1 / 2 : ℝ)⌉).transposed)
      (matToQuat (c4samples ⌈(1 / 2 : ℝ)⌉).transposed) = 1 := by
    rw [hcl, show c4samples (1 : ℤ) = mat3Rz90 from rfl]
    exact matToQuat_rz90_unit
  exact ⟨ht, hfrac, hq0, hq1,
    c4_matrix_slerp c4samples (1 / 2) ht hfrac hq0 hq1⟩

end Blendyn
